import Mathlib

/-!
Shallow embedding of the `stm32_i2s` driver crate and proofs about it.

The embedding follows the Rust source:
  * `src/driver.rs` — prescaler arithmetic (`div_round`, `_coef`,
    `_set_request_frequency`, `_set_require_frequency`), the `I2sDriverConfig`
    and `DualI2sDriverConfig` builders, and the register writes performed by
    `I2sDriverConfig::i2s_driver`;
  * `src/marker.rs` — per-standard `WS_START_LEVEL` constants;
  * `src/v12x/config.rs` — `MasterConfig::with_division` /
    `MasterConfig::with_sample_rate`;
  * `src/v12x/format/data24frame32.rs` — the 24-bit-in-32-bit frame codec;
  * `src/transfer.rs` — the `I2sTransfer` state machine (master and slave,
    transmit and receive, `Data16` and `Data32Channel32` variants).

Machine integers are modelled as `Nat` carrying the unsigned bit pattern, with
an explicit `% U32` (or `% 65536`) wherever the Rust `u32`/`u16` operation can
wrap (release-mode overflow semantics).  A Rust `panic!` — including the
built-in division-by-zero panic — is modelled by `none` or by an explicit
`panicked` outcome constructor.  Signed casts (`as u16`, `as i16`, `as u32`)
are modelled by the bit-pattern conversions `u16ofI16`, `i16ofU16`, `u32ofI32`.
-/

namespace StmI2s

/-- Modulus of unsigned 32-bit arithmetic. -/
def U32 : Nat := 4294967296

/-- I2s standard selection (`driver.rs`, `private::I2sStandard`). -/
inductive I2sStandard
  | Philips
  | Msb
  | Lsb
  | PcmShortSync
  | PcmLongSync
deriving DecidableEq

/-- Data length and channel width (`driver.rs`, `DataFormat`). -/
inductive DataFormat
  | Data16Channel16
  | Data16Channel32
  | Data24Channel32
  | Data32Channel32
deriving DecidableEq

/-- Steady state clock polarity (`driver.rs`, `ClockPolarity`). -/
inductive ClockPolarity
  | IdleLow
  | IdleHigh
deriving DecidableEq

/-- Role of the peripheral (`driver.rs`, `SlaveOrMaster`). -/
inductive SlaveOrMaster
  | Slave
  | Master
deriving DecidableEq

/-- Communication direction (`driver.rs`, `private::TransmitOrReceive`). -/
inductive TransmitOrReceive
  | Transmit
  | Receive
deriving DecidableEq

/-- Sampling-frequency specification (`driver.rs`, `Frequency`); `div` is the
`u8` payload of the `Prescaler` variant. -/
inductive Frequency
  | Prescaler (odd : Bool) (div : Nat)
  | Request (freq : Nat)
  | Require (freq : Nat)
deriving DecidableEq

/-- Number of audio channels used by `_coef` (`driver.rs`): 2 for Philips, Msb
and Lsb, 1 for the PCM standards. -/
def nb_chan (std : I2sStandard) : Nat :=
  match std with
  | .Philips | .Msb | .Lsb => 2
  | .PcmShortSync | .PcmLongSync => 1

/-- Clock coefficient (`driver.rs`, `_coef`): `128 * nb_chan` when the master
clock is enabled, otherwise `16 * nb_chan` for `Data16Channel16` and
`32 * nb_chan` for the other data formats. -/
def _coef (mclk : Bool) (std : I2sStandard) (data_format : DataFormat) : Nat :=
  if mclk then 128 * nb_chan std
  else
    match data_format with
    | .Data16Channel16 => 16 * nb_chan std
    | _ => 32 * nb_chan std

/-- Rounding division (`driver.rs`, `div_round`): `(n + (d >> 1)) / d` in `u32`
arithmetic.  The addition wraps modulo `2^32` (release-mode Rust overflow
semantics) and division by zero panics, modelled as `none`. -/
def div_round (n d : Nat) : Option Nat :=
  if d = 0 then none
  else some (((n + d / 2) % U32) / d)

/-- Prescaler pair `(odd, i2sdiv)` programmed by `_set_request_frequency`
(`driver.rs`).  The multiplication `coef * request_freq` is a `u32`
multiplication and wraps modulo `2^32`; `none` models the division-by-zero
panic when the wrapped product is zero.  `(division & 1) == 1` is written as
`division % 2 = 1` and `division >> 1` as `division / 2` (here `division ≤ 511`
so the `as u8` cast is lossless). -/
def _set_request_frequency (i2s_clock request_freq : Nat) (mclk : Bool)
    (std : I2sStandard) (data_format : DataFormat) : Option (Bool × Nat) :=
  match div_round i2s_clock ((_coef mclk std data_format * request_freq) % U32) with
  | none => none
  | some division =>
      if division < 4 then some (false, 2)
      else if division > 511 then some (true, 255)
      else some (decide (division % 2 = 1), division / 2)

/-- Outcome of `_set_require_frequency` (`driver.rs`): either the `(odd, i2sdiv)`
pair written to the prescaler register, or a panic.  The code panics with
`"Cannot reach exactly the required frequency"` when the division is not exact
or out of range, and Rust itself panics on the `/` and `%` when the wrapped
product `coef * request_freq` is zero. -/
inductive RequireOutcome
  | ok (odd : Bool) (div : Nat)
  | panicked
deriving DecidableEq

/-- Embedding of `_set_require_frequency` (`driver.rs`): integer division of
`i2s_clock` by the (wrapping) `u32` product `coef * request_freq`; succeeds only
when the remainder is zero and `4 ≤ division ≤ 511`. -/
def _set_require_frequency (i2s_clock request_freq : Nat) (mclk : Bool)
    (std : I2sStandard) (data_format : DataFormat) : RequireOutcome :=
  let d := (_coef mclk std data_format * request_freq) % U32
  if d = 0 then .panicked
  else
    let division := i2s_clock / d
    let rem := i2s_clock % d
    if rem = 0 ∧ 4 ≤ division ∧ division ≤ 511 then
      .ok (decide (division % 2 = 1)) (division / 2)
    else .panicked

/-- Round half up of `n / d`, as claim C1 words it.  For naturals this is
`(n + d / 2) / d` in exact (unbounded) arithmetic: the quotient is rounded up
exactly when the remainder is at least half of `d`. -/
def round_half_up (n d : Nat) : Nat := (n + d / 2) / d

/-- Prescaler result exactly as claim C1 states it (spec-side rendering, for
comparison with `_set_request_frequency`): `division` is the round-half-up of
`i2s_clock / (coef * rate)` in exact arithmetic, clamped to `(odd=0, div=2)`
below 4 and `(odd=1, div=255)` above 511, otherwise split into
`div = division >> 1`, `odd = division & 1`. -/
def requestPrescalerClaim (i2s_clock rate : Nat) (mclk : Bool)
    (std : I2sStandard) (data_format : DataFormat) : Bool × Nat :=
  let division := round_half_up i2s_clock (_coef mclk std data_format * rate)
  if division < 4 then (false, 2)
  else if division > 511 then (true, 255)
  else (decide (division % 2 = 1), division / 2)

/-- The coefficient is always positive (at least 16). -/
theorem _coef_pos (mclk : Bool) (std : I2sStandard) (fmt : DataFormat) :
    0 < _coef mclk std fmt := by
  unfold _coef nb_chan
  cases mclk <;> cases std <;> cases fmt <;> simp

/-- Claim C1 (amended: the stated formula additionally requires that neither the
`u32` product `coef * rate` nor the intermediate sum `i2s_clock + (coef*rate)/2`
overflows).  Under those bounds, configuring a master driver with
`Request(rate)` programs the prescaler exactly as the claim states: `division`
is the round-half-up of `i2s_clock / (coef * rate)`; `(odd=0, div=2)` when
`division < 4`; `(odd=1, div=255)` when `division > 511`; otherwise
`div = division >> 1` and `odd = division & 1`. -/
theorem C1_request_frequency_prescaler (i2s_clock rate : Nat) (mclk : Bool)
    (std : I2sStandard) (fmt : DataFormat)
    (hpos : 0 < _coef mclk std fmt * rate)
    (hmul : _coef mclk std fmt * rate < U32)
    (hadd : i2s_clock + (_coef mclk std fmt * rate) / 2 < U32) :
    _set_request_frequency i2s_clock rate mclk std fmt
      = some (requestPrescalerClaim i2s_clock rate mclk std fmt) := by
  unfold _set_request_frequency div_round requestPrescalerClaim round_half_up
  rw [Nat.mod_eq_of_lt hmul, if_neg (Nat.pos_iff_ne_zero.mp hpos),
    Nat.mod_eq_of_lt hadd]
  dsimp only
  split <;> rename_i h1
  · rfl
  · split <;> rfl

/-- Witness for C1 at the end-to-end instance of the claim: `Data16Channel16`,
Philips, master clock disabled, `i2s_clock = 38_400_000`, `rate = 48_000`
gives `(odd = 1, div = 12)`. -/
theorem C1_request_frequency_prescaler_witness :
    _set_request_frequency 38400000 48000 false .Philips .Data16Channel16
      = some (true, 12) := by
  have h := C1_request_frequency_prescaler 38400000 48000 false .Philips
    .Data16Channel16 (by decide) (by decide) (by decide)
  rw [h]
  decide

/-- Counterexample to claim C1 as stated: at `i2s_clock = 4294967295` (a valid
`u32`) and `rate = 48000`, the sum `i2s_clock + (coef*rate)/2` wraps modulo
`2^32`, so the code programs `(odd=0, div=2)` while the claimed round-half-up
formula yields `division = 2796 > 511` and therefore `(odd=1, div=255)`. -/
theorem C1_counterexample :
    _set_request_frequency 4294967295 48000 false .Philips .Data16Channel16
        = some (false, 2)
      ∧ requestPrescalerClaim 4294967295 48000 false .Philips .Data16Channel16
        = (true, 255) := by
  constructor <;> decide

/-- Claim C2 (amended: the divisor is the wrapping `u32` product
`(coef * rate) % 2^32`, and on failure the code panics with
`"Cannot reach exactly the required frequency"` — there is no typed
`FrequencyUnreachable` error anywhere in the crate).  `Require(rate)` succeeds
iff the division of `i2s_clock` by the wrapped product is exact (nonzero
divisor, zero remainder) with quotient in `[4, 511]`; on success the programmed
pair satisfies `2*div + odd = division`, and — whenever `coef * rate` does not
overflow — the effective rate `i2s_clock / (coef * (2*div + odd))` is exactly
the requested rate. -/
theorem C2_require_frequency_exact (i2s_clock rate : Nat) (mclk : Bool)
    (std : I2sStandard) (fmt : DataFormat) :
    (_set_require_frequency i2s_clock rate mclk std fmt ≠ .panicked ↔
      ((_coef mclk std fmt * rate) % U32 ≠ 0
        ∧ i2s_clock % ((_coef mclk std fmt * rate) % U32) = 0
        ∧ 4 ≤ i2s_clock / ((_coef mclk std fmt * rate) % U32)
        ∧ i2s_clock / ((_coef mclk std fmt * rate) % U32) ≤ 511))
    ∧ (∀ odd div,
        _set_require_frequency i2s_clock rate mclk std fmt = .ok odd div →
        2 * div + (if odd then 1 else 0)
            = i2s_clock / ((_coef mclk std fmt * rate) % U32)
          ∧ (_coef mclk std fmt * rate < U32 →
              i2s_clock / (_coef mclk std fmt * (2 * div + (if odd then 1 else 0)))
                = rate)) := by
  constructor
  · simp only [_set_require_frequency]
    by_cases hd : (_coef mclk std fmt * rate) % U32 = 0
    · simp [hd]
    · simp only [hd, if_false, ne_eq, not_false_iff, true_and]
      by_cases hc : i2s_clock % ((_coef mclk std fmt * rate) % U32) = 0
          ∧ 4 ≤ i2s_clock / ((_coef mclk std fmt * rate) % U32)
          ∧ i2s_clock / ((_coef mclk std fmt * rate) % U32) ≤ 511
      · simp [hc]
      · simp [hc]
  · intro odd div hok
    simp only [_set_require_frequency] at hok
    by_cases hd : (_coef mclk std fmt * rate) % U32 = 0
    · simp [hd] at hok
    · rw [if_neg hd] at hok
      by_cases hc : i2s_clock % ((_coef mclk std fmt * rate) % U32) = 0
          ∧ 4 ≤ i2s_clock / ((_coef mclk std fmt * rate) % U32)
          ∧ i2s_clock / ((_coef mclk std fmt * rate) % U32) ≤ 511
      · rw [if_pos hc] at hok
        have hodd := (RequireOutcome.ok.injEq _ _ _ _).mp hok
        obtain ⟨hodd, hdiv⟩ := hodd
        have hsplit : 2 * div + (if odd then 1 else 0)
            = i2s_clock / ((_coef mclk std fmt * rate) % U32) := by
          rw [← hodd, ← hdiv]
          rcases Nat.mod_two_eq_zero_or_one
              (i2s_clock / ((_coef mclk std fmt * rate) % U32)) with h2 | h2 <;>
            simp [h2] <;> omega
        refine ⟨hsplit, ?_⟩
        intro hmul
        rw [hsplit]
        rw [Nat.mod_eq_of_lt hmul] at hc hd ⊢
        obtain ⟨hrem, h4, _⟩ := hc
        have hdvd : _coef mclk std fmt * rate ∣ i2s_clock :=
          Nat.dvd_of_mod_eq_zero hrem
        obtain ⟨q, hq⟩ := hdvd
        have hq' : i2s_clock / (_coef mclk std fmt * rate) = q := by
          rw [hq]
          exact Nat.mul_div_cancel_left q (Nat.pos_of_ne_zero hd)
        rw [hq', hq]
        have hqpos : 0 < q := by omega
        have hcoef := _coef_pos mclk std fmt
        have hrate : 0 < rate := by
          rcases Nat.eq_zero_or_pos rate with h0 | h0
          · exfalso; rw [h0, Nat.mul_zero] at hd; exact hd rfl
          · exact h0
        calc _coef mclk std fmt * rate * q / (_coef mclk std fmt * q)
            = rate * (_coef mclk std fmt * q) / (_coef mclk std fmt * q) := by
              ring_nf
          _ = rate := Nat.mul_div_cancel rate (by positivity)
      · rw [if_neg hc] at hok
        exact absurd hok (by simp)

/-- Witness for C2 at `i2s_clock = 38_400_000`, `rate = 48_000`,
`Data16Channel16`, Philips, master clock disabled: the division is exact
(`division = 25`), the code succeeds with `(odd = 1, div = 12)`,
`2*12 + 1 = 25`, and the effective rate is exactly 48 000 Hz. -/
theorem C2_require_frequency_exact_witness :
    _set_require_frequency 38400000 48000 false .Philips .Data16Channel16
        = .ok true 12
      ∧ 2 * 12 + (if true then 1 else 0) = 38400000 / ((32 * 48000) % U32)
      ∧ 38400000 / (32 * (2 * 12 + (if true then 1 else 0))) = 48000 := by
  have hok : _set_require_frequency 38400000 48000 false .Philips .Data16Channel16
      = .ok true 12 := by decide
  have h := (C2_require_frequency_exact 38400000 48000 false .Philips
    .Data16Channel16).2 true 12 hok
  exact ⟨hok, h.1, h.2 (by decide)⟩

/-- Counterexample to claim C2 as stated: on an inexact division
(`i2s_clock = 38_400_000`, `rate = 44_100`, coefficient 32, remainder nonzero)
the code reaches the `panic!("Cannot reach exactly the required frequency")`
branch — it panics instead of failing with a typed `FrequencyUnreachable`
error (no such error type exists in the crate). -/
theorem C2_counterexample :
    _set_require_frequency 38400000 44100 false .Philips .Data16Channel16
      = .panicked := by
  decide

/-- Driver configuration (`driver.rs`, `I2sDriverConfig`), with the typestate
parameters erased into the stored fields. -/
structure I2sDriverConfig where
  slave_or_master : SlaveOrMaster
  transmit_or_receive : TransmitOrReceive
  standard : I2sStandard
  clock_polarity : ClockPolarity
  data_format : DataFormat
  master_clock : Bool
  frequency : Frequency
deriving DecidableEq

/-- Default master configuration (`driver.rs`, `I2sDriverConfig::new_master`). -/
def I2sDriverConfig.new_master : I2sDriverConfig :=
  { slave_or_master := .Master
    transmit_or_receive := .Transmit
    standard := .Philips
    clock_polarity := .IdleLow
    data_format := .Data16Channel16
    master_clock := false
    frequency := .Prescaler false 2 }

/-- Default slave configuration (`driver.rs`, `I2sDriverConfig::new_slave`). -/
def I2sDriverConfig.new_slave : I2sDriverConfig :=
  { I2sDriverConfig.new_master with slave_or_master := .Slave }

/-- Conversion to a slave configuration (`driver.rs`,
`I2sDriverConfig::to_slave`): keeps direction, standard, clock polarity and
data format; resets the master-only settings. -/
def I2sDriverConfig.to_slave (c : I2sDriverConfig) : I2sDriverConfig :=
  { slave_or_master := .Slave
    transmit_or_receive := c.transmit_or_receive
    standard := c.standard
    clock_polarity := c.clock_polarity
    data_format := c.data_format
    master_clock := false
    frequency := .Prescaler false 2 }

/-- Prescaler setter (`driver.rs`, `I2sDriverConfig::prescaler`): panics
(`none`) when `div < 2`; `div` is a `u8`. -/
def I2sDriverConfig.prescaler (c : I2sDriverConfig) (odd : Bool) (div : Nat) :
    Option I2sDriverConfig :=
  if div < 2 then none
  else some { c with frequency := .Prescaler odd div }

/-- Frequency request setter (`driver.rs`, `I2sDriverConfig::request_frequency`). -/
def I2sDriverConfig.request_frequency (c : I2sDriverConfig) (freq : Nat) :
    I2sDriverConfig :=
  { c with frequency := .Request freq }

/-- Frequency requirement setter (`driver.rs`, `I2sDriverConfig::require_frequency`). -/
def I2sDriverConfig.require_frequency (c : I2sDriverConfig) (freq : Nat) :
    I2sDriverConfig :=
  { c with frequency := .Require freq }

/-- Dual driver configuration (`driver.rs`, `DualI2sDriverConfig`). -/
structure DualI2sDriverConfig where
  slave_or_master : SlaveOrMaster
  main_dir : TransmitOrReceive
  ext_dir : TransmitOrReceive
  standard : I2sStandard
  clock_polarity : ClockPolarity
  data_format : DataFormat
  master_clock : Bool
  frequency : Frequency
deriving DecidableEq

/-- Conversion to a slave configuration (`driver.rs`,
`DualI2sDriverConfig::to_slave`). -/
def DualI2sDriverConfig.to_slave (c : DualI2sDriverConfig) : DualI2sDriverConfig :=
  { slave_or_master := .Slave
    main_dir := c.main_dir
    ext_dir := c.ext_dir
    standard := c.standard
    clock_polarity := c.clock_polarity
    data_format := c.data_format
    master_clock := false
    frequency := .Prescaler false 2 }

/-- Claim C8: converting any configuration with `to_slave` resets the
master-only settings to the fixed safe values — master clock disabled and
prescaler `(odd = 0, div = 2)` — and leaves direction, standard, clock polarity
and data format unchanged; this holds for the single driver configuration and
for the dual one. -/
theorem C8_to_slave_resets_master_settings (c : I2sDriverConfig)
    (d : DualI2sDriverConfig) :
    c.to_slave.slave_or_master = .Slave
      ∧ c.to_slave.master_clock = false
      ∧ c.to_slave.frequency = .Prescaler false 2
      ∧ c.to_slave.transmit_or_receive = c.transmit_or_receive
      ∧ c.to_slave.standard = c.standard
      ∧ c.to_slave.clock_polarity = c.clock_polarity
      ∧ c.to_slave.data_format = c.data_format
      ∧ d.to_slave.slave_or_master = .Slave
      ∧ d.to_slave.master_clock = false
      ∧ d.to_slave.frequency = .Prescaler false 2
      ∧ d.to_slave.main_dir = d.main_dir
      ∧ d.to_slave.ext_dir = d.ext_dir
      ∧ d.to_slave.standard = d.standard
      ∧ d.to_slave.clock_polarity = d.clock_polarity
      ∧ d.to_slave.data_format = d.data_format := by
  refine ⟨rfl, rfl, rfl, rfl, rfl, rfl, rfl, rfl, rfl, rfl, rfl, rfl, rfl, rfl, rfl⟩

/-- `I2SCFG` field values (`pac`: slave/master, transmit/receive). -/
inductive I2scfgBits
  | slave_tx
  | slave_rx
  | master_tx
  | master_rx
deriving DecidableEq

/-- `I2SSTD` field values. -/
inductive I2sstdBits
  | philips
  | msb
  | lsb
  | pcm
deriving DecidableEq

/-- `DATLEN` field values. -/
inductive DatlenBits
  | sixteen_bit
  | twenty_four_bit
  | thirty_two_bit
deriving DecidableEq

/-- Relevant fields of the `I2SCFGR` register. -/
structure I2scfgr where
  i2se : Bool
  i2smod : Bool
  i2scfg : I2scfgBits
  i2sstd : I2sstdBits
  pcmsync_long : Bool
  ckpol_idle_high : Bool
  datlen : DatlenBits
  chlen_32 : Bool
deriving DecidableEq

/-- Relevant fields of the `I2SPR` register. -/
structure I2spr where
  mckoe : Bool
  odd : Bool
  i2sdiv : Nat
deriving DecidableEq

/-- The register state left behind by `I2sDriverConfig::i2s_driver`; `cr1` and
`cr2` are kept as whole-register values (both are `reset` to 0, which clears
every interrupt and DMA enable bit of `CR2`). -/
structure Registers where
  cr1 : Nat
  cr2 : Nat
  i2scfgr : I2scfgr
  i2spr : I2spr
deriving DecidableEq

/-- The `(odd, i2sdiv)` pair written into `I2SPR` by `i2s_driver`: the
`match self.frequency` inside the `i2spr.write` closure (`driver.rs` 479-501).
`none` models the panic paths. -/
def driver_prescaler (config : I2sDriverConfig) (i2s_freq : Nat) :
    Option (Bool × Nat) :=
  match config.frequency with
  | .Prescaler odd div => some (odd, div)
  | .Request freq =>
      _set_request_frequency i2s_freq freq config.master_clock
        config.standard config.data_format
  | .Require freq =>
      match _set_require_frequency i2s_freq freq config.master_clock
          config.standard config.data_format with
      | .ok odd div => some (odd, div)
      | .panicked => none

/-- The `I2SCFGR` value written by `i2s_driver` (svd2rust `write` semantics:
fields the closure does not set take their reset value, so `i2se` stays
0/disabled and `ckpol` stays at reset since the code never writes it). -/
def driver_i2scfgr (config : I2sDriverConfig) : I2scfgr :=
  { i2se := false
    i2smod := true
    i2scfg :=
      match config.slave_or_master, config.transmit_or_receive with
      | .Slave, .Transmit => .slave_tx
      | .Slave, .Receive => .slave_rx
      | .Master, .Transmit => .master_tx
      | .Master, .Receive => .master_rx
    i2sstd :=
      match config.standard with
      | .Philips => .philips
      | .Msb => .msb
      | .Lsb => .lsb
      | .PcmShortSync => .pcm
      | .PcmLongSync => .pcm
    pcmsync_long := decide (config.standard = .PcmLongSync)
    ckpol_idle_high := false
    datlen :=
      match config.data_format with
      | .Data16Channel16 => .sixteen_bit
      | .Data16Channel32 => .sixteen_bit
      | .Data24Channel32 => .twenty_four_bit
      | .Data32Channel32 => .thirty_two_bit
    chlen_32 :=
      match config.data_format with
      | .Data16Channel16 => false
      | _ => true }

/-- Register writes performed by `I2sDriverConfig::i2s_driver` (`driver.rs`
445-503): `cr1.reset()`, `cr2.reset()`, a single `i2scfgr.write`
(`driver_i2scfgr`), then a single `i2spr.write` with `mckoe` and the prescaler
(`driver_prescaler`, the `match self.frequency` inside the closure).  `none`
models the panic paths (a `Require` that cannot be met, or the
division-by-zero panic in the `Request`/`Require` arithmetic when the wrapped
`u32` product `coef * freq` is zero). -/
def i2s_driver (config : I2sDriverConfig) (i2s_freq : Nat) : Option Registers :=
  match driver_prescaler config i2s_freq with
  | none => none
  | some (odd, div) =>
      some { cr1 := 0
             cr2 := 0
             i2scfgr := driver_i2scfgr config
             i2spr := { mckoe := config.master_clock, odd := odd, i2sdiv := div } }

/-- `_set_request_frequency` only panics through the division by zero, i.e. when
the wrapped product `coef * freq` is zero. -/
theorem _set_request_frequency_none (i2s_clock freq : Nat) (mclk : Bool)
    (std : I2sStandard) (fmt : DataFormat)
    (h : _set_request_frequency i2s_clock freq mclk std fmt = none) :
    (_coef mclk std fmt * freq) % U32 = 0 := by
  revert h
  unfold _set_request_frequency div_round
  by_cases hd : (_coef mclk std fmt * freq) % U32 = 0
  · intro _; exact hd
  · rw [if_neg hd]
    dsimp only
    split
    · intro h; exact Option.noConfusion h
    · split
      · intro h; exact Option.noConfusion h
      · intro h; exact Option.noConfusion h

/-- Claim C9 (amended: besides `Require`, a `Request` whose wrapped `u32`
product `coef * freq` is zero — for example `request_frequency(0)` — also
makes instantiation fail, through Rust's division-by-zero panic).  Whenever
instantiation succeeds it leaves the enable bit cleared (device disabled),
`CR1` and `CR2` reset (so all interrupt and DMA enable bits are cleared),
`I2SMOD` set, `MCKOE` equal to the configured master clock, and a `Prescaler`
frequency is written verbatim as `(odd, i2sdiv)`; a failure implies the
frequency specification was `Require`, or a `Request` with wrapped
`coef * freq = 0`. -/
theorem C9_materialize_disabled (config : I2sDriverConfig) (i2s_freq : Nat) :
    (∀ regs, i2s_driver config i2s_freq = some regs →
      regs.i2scfgr.i2se = false
        ∧ regs.cr1 = 0
        ∧ regs.cr2 = 0
        ∧ regs.i2scfgr.i2smod = true
        ∧ regs.i2spr.mckoe = config.master_clock
        ∧ (∀ odd div, config.frequency = .Prescaler odd div →
            regs.i2spr.odd = odd ∧ regs.i2spr.i2sdiv = div))
    ∧ (i2s_driver config i2s_freq = none →
        (∃ freq, config.frequency = .Require freq)
          ∨ (∃ freq, config.frequency = .Request freq
              ∧ (_coef config.master_clock config.standard config.data_format
                  * freq) % U32 = 0)) := by
  constructor
  · intro regs hsome
    rcases hp : driver_prescaler config i2s_freq with - | ⟨odd, div⟩
    · rw [i2s_driver, hp] at hsome
      exact absurd hsome (by simp)
    · rw [i2s_driver, hp] at hsome
      simp only [Option.some.injEq] at hsome
      subst hsome
      refine ⟨rfl, rfl, rfl, rfl, rfl, ?_⟩
      intro odd' div' hfreq
      rw [driver_prescaler, hfreq] at hp
      simp only [Option.some.injEq, Prod.mk.injEq] at hp
      exact ⟨hp.1.symm, hp.2.symm⟩
  · intro hnone
    rcases hp : driver_prescaler config i2s_freq with - | ⟨odd, div⟩
    · rw [driver_prescaler] at hp
      revert hp
      cases hfreq : config.frequency with
      | Prescaler odd div => intro hp; exact absurd hp (by simp)
      | Require freq => intro _; exact .inl ⟨freq, rfl⟩
      | Request freq =>
          intro hp
          exact .inr ⟨freq, rfl,
            _set_request_frequency_none i2s_freq freq config.master_clock
              config.standard config.data_format hp⟩
    · rw [i2s_driver, hp] at hnone
      exact absurd hnone (by simp)

/-- Witness for C9: the default master configuration with
`request_frequency(48_000)` materialized against a 38.4 MHz clock succeeds and
leaves the device disabled with `CR1 = CR2 = 0`, `I2SMOD` set, `MCKOE` clear. -/
theorem C9_materialize_disabled_witness :
    ∃ regs,
      i2s_driver (I2sDriverConfig.new_master.request_frequency 48000) 38400000
          = some regs
        ∧ regs.i2scfgr.i2se = false ∧ regs.cr1 = 0 ∧ regs.cr2 = 0
        ∧ regs.i2scfgr.i2smod = true ∧ regs.i2spr.mckoe = false := by
  have hsome : i2s_driver (I2sDriverConfig.new_master.request_frequency 48000)
      38400000
      = some { cr1 := 0, cr2 := 0
               i2scfgr := { i2se := false, i2smod := true, i2scfg := .master_tx
                            i2sstd := .philips, pcmsync_long := false
                            ckpol_idle_high := false, datlen := .sixteen_bit
                            chlen_32 := false }
               i2spr := { mckoe := false, odd := true, i2sdiv := 12 } } := by
    decide
  have h := (C9_materialize_disabled
    (I2sDriverConfig.new_master.request_frequency 48000) 38400000).1 _ hsome
  exact ⟨_, hsome, h.1, h.2.1, h.2.2.1, h.2.2.2.1, h.2.2.2.2.1⟩

/-- Counterexample to claim C9 as stated: a `Request` specification can also
make instantiation fail — `request_frequency(0)` panics with a division by
zero (`coef * 0 = 0`), so `Require` is not the only failing frequency mode. -/
theorem C9_counterexample :
    i2s_driver (I2sDriverConfig.new_master.request_frequency 0) 38400000
      = none := by
  decide

/-- PCM frame synchronization (`lib.rs` / v12x `format.rs`, `FrameSync`). -/
inductive FrameSync
  | Short
  | Long
deriving DecidableEq

/-- Frame format (`lib.rs` / v12x `format.rs`, `FrameFormat`). -/
inductive FrameFormat
  | PhilipsI2s
  | MsbJustified
  | LsbJustified
  | Pcm (sync : FrameSync)
deriving DecidableEq

/-- Clock polarity of the v12x API (`lib.rs`, `Polarity`). -/
inductive Polarity
  | IdleLow
  | IdleHigh
deriving DecidableEq

/-- Master-mode configuration (v12x `config.rs`, `MasterConfig<F>`).  The data
format type parameter `F` only enters `with_sample_rate` through `F::CHLEN`,
kept here as the `chlen_32` flag. -/
structure MasterConfig where
  division : Nat
  chlen_32 : Bool
  frame_format : FrameFormat
  polarity : Polarity
  master_clock : Bool
deriving DecidableEq

/-- `MasterConfig::with_division` (v12x `config.rs`): panics (`none`) unless
`division` lies in `DIVISION_RANGE = 4..512`. -/
def MasterConfig.with_division (division : Nat) (chlen_32 : Bool)
    (frame_format : FrameFormat) (polarity : Polarity) (master_clock : Bool) :
    Option MasterConfig :=
  if 4 ≤ division ∧ division < 512 then
    some { division := division, chlen_32 := chlen_32
           frame_format := frame_format, polarity := polarity
           master_clock := master_clock }
  else none

/-- `is_valid_division` (v12x `config.rs`): membership in `4..512`. -/
def is_valid_division (division : Nat) : Bool :=
  decide (4 ≤ division) && decide (division < 512)

/-- Cast of a `u32` bit pattern to the signed `i32` value (`as i32`). -/
def toI32 (x : Nat) : Int :=
  if x % U32 < 2147483648 then (x % U32 : Int) else (x % U32 : Int) - (U32 : Int)

/-- Wrapping of an integer into the `i32` range (release-mode overflow
semantics of `i32` subtraction). -/
def wrapI32 (z : Int) : Int := (z + 2147483648) % (U32 : Int) - 2147483648

/-- `i32::abs` with release-mode overflow semantics (`i32::MIN` maps to
itself). -/
def absI32 (z : Int) : Int := wrapI32 (if z < 0 then -z else z)

/-- Rust `Iterator::min_by_key` on a list: the first element whose key is
minimal, `none` on an empty list (where `with_sample_rate` would panic through
`.expect`). -/
def min_by_key (key : Nat → Int) (l : List Nat) : Option Nat :=
  match l with
  | [] => none
  | x :: xs => some (xs.foldl (fun best y => if key y < key best then y else best) x)

/-- Candidate division selected by `MasterConfig::with_sample_rate` (v12x
`config.rs`) before the final `with_division` range check: computes
`division = frequency_in / (sample_rate * 2 * bits_per_sample * mcd)` (all in
wrapping `u32` arithmetic, `none` on the division-by-zero panic), then tries
`division - 1`, `division`, `division + 1` (Rust saturating arithmetic; `Nat`
subtraction already saturates at 0), keeps the candidates in `4..512` and
picks the first one minimizing the deviation of the real sample rate (`none`
models the `.expect` panic when no candidate is valid). -/
def with_sample_rate_division (frequency_in sample_rate : Nat)
    (chlen_32 master_clock : Bool) : Option Nat :=
  let bits_per_sample : Nat := if chlen_32 then 32 else 16
  let master_clock_division : Nat :=
    if master_clock then (if chlen_32 then 4 else 8) else 1
  let bit_rate := (sample_rate * 2 * bits_per_sample) % U32
  let denom := (bit_rate * master_clock_division) % U32
  if denom = 0 then none
  else
    let division := frequency_in / denom
    let division_options : List Nat :=
      [division - 1, division, min (division + 1) (U32 - 1)]
    let key : Nat → Int := fun d =>
      absI32 (wrapI32
        (toI32 (frequency_in / (bits_per_sample * 2 * d * master_clock_division))
          - toI32 sample_rate))
    min_by_key key (division_options.filter is_valid_division)

/-- `MasterConfig::with_sample_rate` (v12x `config.rs`): picks the best
division (`with_sample_rate_division`) and delegates to `with_division`. -/
def MasterConfig.with_sample_rate (frequency_in sample_rate : Nat)
    (chlen_32 : Bool) (frame_format : FrameFormat) (polarity : Polarity)
    (master_clock : Bool) : Option MasterConfig :=
  match with_sample_rate_division frequency_in sample_rate chlen_32
      master_clock with
  | none => none
  | some best =>
      MasterConfig.with_division best chlen_32 frame_format polarity
        master_clock

/-- Claim C7: every constructed master configuration satisfies the divider
invariant.  The driver-level prescaler setter rejects `div < 2` (and any
accepted `u8` divider yields a combined division `2*div + odd` in `[4, 511]`);
`MasterConfig::with_division` accepts exactly the divisions in `[4, 511]` and
stores such a division; `MasterConfig::with_sample_rate` only ever produces a
configuration whose division is in `[4, 511]`. -/
theorem C7_divider_invariant :
    (∀ (c : I2sDriverConfig) (odd : Bool) (div : Nat),
      (c.prescaler odd div = none ↔ div < 2)
        ∧ (∀ c', c.prescaler odd div = some c' →
            c'.frequency = .Prescaler odd div
              ∧ (div < 256 →
                  4 ≤ 2 * div + (if odd then 1 else 0)
                    ∧ 2 * div + (if odd then 1 else 0) ≤ 511)))
    ∧ (∀ division chlen_32 frame_format polarity master_clock,
        ((MasterConfig.with_division division chlen_32 frame_format polarity
            master_clock).isSome ↔ 4 ≤ division ∧ division ≤ 511)
          ∧ (∀ c, MasterConfig.with_division division chlen_32 frame_format
              polarity master_clock = some c →
              4 ≤ c.division ∧ c.division ≤ 511))
    ∧ (∀ frequency_in sample_rate chlen_32 frame_format polarity master_clock c,
        MasterConfig.with_sample_rate frequency_in sample_rate chlen_32
            frame_format polarity master_clock = some c →
        4 ≤ c.division ∧ c.division ≤ 511) := by
  refine ⟨?_, ?_, ?_⟩
  · intro c odd div
    constructor
    · constructor
      · intro h
        by_contra hlt
        rw [I2sDriverConfig.prescaler, if_neg hlt] at h
        exact Option.noConfusion h
      · intro h
        rw [I2sDriverConfig.prescaler, if_pos h]
    · intro c' h
      by_cases hlt : div < 2
      · rw [I2sDriverConfig.prescaler, if_pos hlt] at h
        exact Option.noConfusion h
      · rw [I2sDriverConfig.prescaler, if_neg hlt] at h
        simp only [Option.some.injEq] at h
        subst h
        refine ⟨rfl, ?_⟩
        intro h256
        cases odd <;> simp <;> omega
  · intro division chlen_32 frame_format polarity master_clock
    constructor
    · constructor
      · intro h
        by_contra hrange
        rw [MasterConfig.with_division, if_neg (by omega)] at h
        simp at h
      · intro h
        rw [MasterConfig.with_division, if_pos (by omega)]
        rfl
    · intro c h
      by_cases hrange : 4 ≤ division ∧ division < 512
      · rw [MasterConfig.with_division, if_pos hrange] at h
        simp only [Option.some.injEq] at h
        subst h
        refine ⟨hrange.1, ?_⟩
        show division ≤ 511
        omega
      · rw [MasterConfig.with_division, if_neg hrange] at h
        exact Option.noConfusion h
  · intro frequency_in sample_rate chlen_32 frame_format polarity master_clock c h
    rcases hb : with_sample_rate_division frequency_in sample_rate chlen_32
        master_clock with - | best
    · simp only [MasterConfig.with_sample_rate, hb] at h
      exact Option.noConfusion h
    · simp only [MasterConfig.with_sample_rate, hb] at h
      by_cases hrange : 4 ≤ best ∧ best < 512
      · rw [MasterConfig.with_division, if_pos hrange] at h
        simp only [Option.some.injEq] at h
        subst h
        refine ⟨hrange.1, ?_⟩
        show best ≤ 511
        omega
      · rw [MasterConfig.with_division, if_neg hrange] at h
        exact Option.noConfusion h

/-- Witness for C7: the concrete instances — `prescaler(odd = true, div = 2)`
is accepted with combined division `5 ∈ [4, 511]` while `div = 1` is rejected;
`with_division 25` succeeds with division 25; `with_sample_rate` at 38.4 MHz /
48 kHz (16-bit channels, no master clock) succeeds with a division in
`[4, 511]`. -/
theorem C7_divider_invariant_witness :
    (I2sDriverConfig.new_master.prescaler true 1 = none)
      ∧ (∃ c', I2sDriverConfig.new_master.prescaler true 2 = some c'
          ∧ c'.frequency = .Prescaler true 2)
      ∧ 4 ≤ 2 * 2 + 1 ∧ 2 * 2 + 1 ≤ 511
      ∧ (∃ c, MasterConfig.with_sample_rate 38400000 48000 false .PhilipsI2s
            .IdleHigh false = some c
          ∧ 4 ≤ c.division ∧ c.division ≤ 511) := by
  have h1 := (C7_divider_invariant.1 I2sDriverConfig.new_master true 1).1.mpr
    (by decide)
  have hsome : I2sDriverConfig.new_master.prescaler true 2
      = some { I2sDriverConfig.new_master with frequency := .Prescaler true 2 } := by
    decide
  have h2 := (C7_divider_invariant.1 I2sDriverConfig.new_master true 2).2 _ hsome
  have hs : MasterConfig.with_sample_rate 38400000 48000 false .PhilipsI2s
      .IdleHigh false
      = some { division := 25, chlen_32 := false, frame_format := .PhilipsI2s
               polarity := .IdleHigh, master_clock := false } := by
    decide
  have h3 := C7_divider_invariant.2.2 38400000 48000 false .PhilipsI2s
    .IdleHigh false _ hs
  have h4 := h2.2 (by decide)
  refine ⟨h1, ⟨_, hsome, h2.1⟩, ?_, ?_, ⟨_, hs, h3.1, h3.2⟩⟩ <;> omega

/-- `sign_extend_24_to_32` (v12x `data24frame32.rs`): replicate bit 23 of a
24-bit value into bits 24..31. -/
def sign_extend_24_to_32 (value : Nat) : Nat :=
  if (value >>> 23) &&& 1 = 1 then 0xff000000 ||| value else value

/-- `build_sample_msb_justified` (v12x `data24frame32.rs`), on the `u16` bit
patterns of the two data-register reads, returning the `u32` bit pattern of
the `i32` result. -/
def build_sample_msb_justified (values : Nat × Nat) : Nat :=
  let read1 := values.1
  let read2 := values.2 &&& 0xff00
  sign_extend_24_to_32 ((read1 <<< 8) ||| (read2 >>> 8))

/-- `build_sample_lsb_justified` (v12x `data24frame32.rs`). -/
def build_sample_lsb_justified (values : Nat × Nat) : Nat :=
  let read1 := values.1 &&& 0x00ff
  let read2 := values.2
  sign_extend_24_to_32 ((read1 <<< 16) ||| read2)

/-- `split_sample_msb_justified` (v12x `data24frame32.rs`); the `% 65536` are
the `as u16` casts. -/
def split_sample_msb_justified (sample : Nat) : Nat × Nat :=
  ((sample >>> 8) % 65536, ((sample &&& 0xff) <<< 8) % 65536)

/-- `split_sample_lsb_justified` (v12x `data24frame32.rs`). -/
def split_sample_lsb_justified (sample : Nat) : Nat × Nat :=
  (((sample >>> 16) &&& 0xff) % 65536, sample % 65536)

/-- `Data24Frame32::write_sample` (v12x `data24frame32.rs`): the pair of words
written, by frame format. -/
def write_sample_data24 (format : FrameFormat) (sample : Nat) : Nat × Nat :=
  match format with
  | .LsbJustified => split_sample_lsb_justified sample
  | .PhilipsI2s | .MsbJustified | .Pcm _ => split_sample_msb_justified sample

/-- `Data24Frame32::read_sample` (v12x `data24frame32.rs`): the sample decoded
from the pair of words read, by frame format. -/
def read_sample_data24 (format : FrameFormat) (values : Nat × Nat) : Nat :=
  match format with
  | .LsbJustified => build_sample_lsb_justified values
  | .PhilipsI2s | .MsbJustified | .Pcm _ => build_sample_msb_justified values

/-- Sign extension as claim C5 words it: the value equal to `s` on its low 24
bits, with bit 23 replicated into bits 24..31. -/
def sign_extend_24_claim (s : Nat) : Nat :=
  s % 2 ^ 24 + (if (s >>> 23) &&& 1 = 1 then 0xff000000 else 0)

/-- Disjoint bitwise or is addition: `2^n * a ||| b = 2^n * a + b` when
`b < 2^n`. -/
theorem lor_two_pow_mul (a b n : Nat) (h : b < 2 ^ n) :
    (2 ^ n * a) ||| b = 2 ^ n * a + b :=
  (Nat.mul_add_lt_is_or h a).symm

/-- Masking an 8-bit-aligned byte with `0xff00` is the identity:
`(2^8 * a) &&& 0xff00 = 2^8 * a` for `a < 2^8`. -/
theorem and_ff00_of_byte (a : Nat) (ha : a < 2 ^ 8) :
    (2 ^ 8 * a) &&& 0xff00 = 2 ^ 8 * a := by
  apply Nat.eq_of_testBit_eq
  intro i
  rw [Nat.testBit_and, show (0xff00 : Nat) = 2 ^ 8 * 255 from rfl,
    Nat.testBit_mul_pow_two, Nat.testBit_mul_pow_two]
  rcases Nat.lt_or_ge i 8 with hi | hi
  · simp [Nat.not_le_of_lt hi]
  · have h255 : ∀ j : Nat, Nat.testBit 255 j = decide (j < 8) := by
      intro j
      rw [show (255 : Nat) = 2 ^ 8 - 1 from rfl]
      exact Nat.testBit_two_pow_sub_one 8 j
    rcases Nat.lt_or_ge (i - 8) 8 with hj | hj
    · simp [hi, h255, hj]
    · have hz : a.testBit (i - 8) = false :=
        Nat.testBit_lt_two_pow
          (lt_of_lt_of_le ha (Nat.pow_le_pow_right (by norm_num) hj))
      simp [hz]

/-- The sign-extension step of the codec agrees with the claim-side formula on
24-bit inputs. -/
theorem sign_extend_24_to_32_eq (v : Nat) (hv : v < 2 ^ 24) :
    sign_extend_24_to_32 v
      = v + (if (v >>> 23) &&& 1 = 1 then 0xff000000 else 0) := by
  rw [sign_extend_24_to_32]
  split
  · rw [show (0xff000000 : Nat) = 2 ^ 24 * 255 from rfl,
      lor_two_pow_mul 255 v 24 hv]
    omega
  · omega

/-- Claim C5: for every `i32` bit pattern `s` and every frame format (the
MSB-justified family Philips / Msb / Pcm and the LSB-justified format),
decoding the two 16-bit words produced by encoding `s` yields the 24-bit sign
extension of `s`: the value equal to `s` on its low 24 bits with bit 23
replicated into bits 24..31. -/
theorem C5_data24_roundtrip (format : FrameFormat) (s : Nat) :
    read_sample_data24 format (write_sample_data24 format s)
      = sign_extend_24_claim s := by
  have hmask8 : ∀ x : Nat, x &&& 255 = x % 2 ^ 8 := fun x =>
    Nat.and_pow_two_sub_one_eq_mod x 8
  have hmask1 : ∀ x : Nat, x &&& 1 = x % 2 ^ 1 := fun x =>
    Nat.and_pow_two_sub_one_eq_mod x 1
  have hbit : ∀ v : Nat, v < 2 ^ 24 →
      ((v >>> 23) &&& 1 = 1) = ((s >>> 23) &&& 1 = 1) → sign_extend_24_to_32 v
        = v + (if (s >>> 23) &&& 1 = 1 then 0xff000000 else 0) := by
    intro v hv hcond
    rw [sign_extend_24_to_32_eq v hv]
    simp only [hcond]
  have hbit23 : ∀ v : Nat, v = s % 2 ^ 24 →
      ((v >>> 23) &&& 1 = 1) = ((s >>> 23) &&& 1 = 1) := by
    intro v hveq
    subst hveq
    rw [hmask1, hmask1, Nat.shiftRight_eq_div_pow, Nat.shiftRight_eq_div_pow]
    apply propext
    constructor <;> (intro h; omega)
  cases format
  case LsbJustified =>
    rw [write_sample_data24, read_sample_data24, split_sample_lsb_justified,
      build_sample_lsb_justified]
    dsimp only
    simp only [hmask8, Nat.shiftRight_eq_div_pow, Nat.shiftLeft_eq]
    have h1 : s / 2 ^ 16 % 2 ^ 8 % 65536 % 2 ^ 8 = s / 2 ^ 16 % 2 ^ 8 := by
      omega
    rw [h1, Nat.mul_comm _ (2 ^ 16),
      lor_two_pow_mul (s / 2 ^ 16 % 2 ^ 8) (s % 65536) 16 (by omega)]
    have h2 : 2 ^ 16 * (s / 2 ^ 16 % 2 ^ 8) + s % 65536 = s % 2 ^ 24 := by
      omega
    rw [h2, hbit _ (by omega) (hbit23 _ rfl), sign_extend_24_claim]
  all_goals
    rw [write_sample_data24, read_sample_data24, split_sample_msb_justified,
      build_sample_msb_justified]
    dsimp only
    simp only [hmask8, Nat.shiftRight_eq_div_pow, Nat.shiftLeft_eq]
    rw [show s % 2 ^ 8 * 2 ^ 8 % 65536 = 2 ^ 8 * (s % 2 ^ 8) from by omega]
    rw [and_ff00_of_byte (s % 2 ^ 8) (by omega)]
    rw [Nat.mul_div_cancel_left (s % 2 ^ 8) (show 0 < 2 ^ 8 from by norm_num)]
    rw [Nat.mul_comm (s / 2 ^ 8 % 65536) (2 ^ 8),
      lor_two_pow_mul (s / 2 ^ 8 % 65536) (s % 2 ^ 8) 8 (by omega)]
    rw [show 2 ^ 8 * (s / 2 ^ 8 % 65536) + s % 2 ^ 8 = s % 2 ^ 24 from by omega]
    rw [hbit _ (by omega) (hbit23 _ rfl), sign_extend_24_claim]

/-- Part of the frame currently transmitted or received (`transfer.rs`,
`FrameState`). -/
inductive FrameState
  | LeftMsb
  | LeftLsb
  | RightMsb
  | RightLsb
deriving DecidableEq

/-- Status flags observed by one `driver.status()` call, plus the value `dr`
the data register would yield if read during this poll (environment oracle). -/
structure Flags where
  txe : Bool
  rxne : Bool
  chside_right : Bool
  ovr : Bool
  udr : Bool
  fre : Bool
  dr : Nat
deriving DecidableEq

/-- State of an `I2sTransfer` (`transfer.rs`), together with the `I2SE` enable
bit of its driver.  `frame` holds the two channel samples as signed values. -/
structure TransferState where
  enabled : Bool
  frame : Int × Int
  frame_state : FrameState
  sync : Bool
deriving DecidableEq

/-- Observable register accesses performed by one call: data-register writes
(in order), counts of data-register reads, status-register reads, and
`rcc_reset` calls (the only way clocks are reset). -/
structure Effects where
  drWrites : List Nat
  drReads : Nat
  srReads : Nat
  rccResets : Nat
deriving DecidableEq

/-- Empty effects. -/
def Effects.nil : Effects := ⟨[], 0, 0, 0⟩

/-- Concatenation of effects of sequential calls. -/
def Effects.append (a b : Effects) : Effects :=
  ⟨a.drWrites ++ b.drWrites, a.drReads + b.drReads, a.srReads + b.srReads,
    a.rccResets + b.rccResets⟩

/-- Rust `as u16` on an `i16` value: the 16-bit two's-complement pattern. -/
def u16ofI16 (x : Int) : Nat := (x % 65536).toNat

/-- Rust `as i16` on a `u16` pattern. -/
def i16ofU16 (d : Nat) : Int :=
  if d % 65536 < 32768 then (d % 65536 : Int) else (d % 65536 : Int) - 65536

/-- Rust `as u32` on an `i32` value: the 32-bit two's-complement pattern. -/
def u32ofI32 (x : Int) : Nat := (x % (U32 : Int)).toNat

/-- Outcome of a non-blocking `write` (`nb::Result<(), Infallible>`): since the
error type `Infallible` has no values, the only outcomes are `Ok(())` and
`Err(WouldBlock)`; `panicked` models the `unreachable!()` arms. -/
inductive WriteOutcome
  | ok
  | wouldBlock
  | panicked
deriving DecidableEq

/-- Outcome of a non-blocking `read` (`nb::Result<Frame, Infallible>`): again
there is no error constructor because `Infallible` is empty. -/
inductive ReadOutcome
  | ok (frame : Int × Int)
  | wouldBlock
  | panicked
deriving DecidableEq

/-- Control outcome of one blocking-loop iteration: keep looping, exit the
loop (`break` / `return`), or hit an `unreachable!()`. -/
inductive IterControl
  | continued
  | stopped
  | panicked
deriving DecidableEq

/-- `I2sTransfer::write`, Master Transmit, `Data16` formats (`transfer.rs`
377-398): enables the peripheral, then on TXE emits the next word of the
frame; returns `Ok` exactly when a new frame was consumed. -/
def masterWrite16 (st : TransferState) (frame : Int × Int) (sr : Flags) :
    TransferState × WriteOutcome × Effects :=
  let st := { st with enabled := true }
  if sr.txe then
    match st.frame_state with
    | .LeftMsb =>
        ({ st with frame := frame, frame_state := .RightMsb }, .ok,
          ⟨[u16ofI16 frame.1], 0, 1, 0⟩)
    | .RightMsb =>
        ({ st with frame_state := .LeftMsb }, .wouldBlock,
          ⟨[u16ofI16 st.frame.2], 0, 1, 0⟩)
    | _ => (st, .panicked, ⟨[], 0, 1, 0⟩)
  else (st, .wouldBlock, ⟨[], 0, 1, 0⟩)

/-- `I2sTransfer::write`, Master Transmit, `Data32Channel32` (`transfer.rs`
448-478).  In the `RightLsb` arm the code uses the `frame` argument rather
than `self.frame`, which is mirrored here. -/
def masterWrite32 (st : TransferState) (frame : Int × Int) (sr : Flags) :
    TransferState × WriteOutcome × Effects :=
  let st := { st with enabled := true }
  if sr.txe then
    match st.frame_state with
    | .LeftMsb =>
        ({ st with frame := frame, frame_state := .LeftLsb }, .ok,
          ⟨[u32ofI32 frame.1 >>> 16], 0, 1, 0⟩)
    | .LeftLsb =>
        ({ st with frame_state := .RightMsb }, .wouldBlock,
          ⟨[u32ofI32 st.frame.1 &&& 0xFFFF], 0, 1, 0⟩)
    | .RightMsb =>
        ({ st with frame_state := .RightLsb }, .wouldBlock,
          ⟨[u32ofI32 st.frame.2 >>> 16], 0, 1, 0⟩)
    | .RightLsb =>
        ({ st with frame_state := .LeftMsb }, .wouldBlock,
          ⟨[u32ofI32 frame.2 &&& 0xFFFF], 0, 1, 0⟩)
  else (st, .wouldBlock, ⟨[], 0, 1, 0⟩)

/-- `I2sTransfer::read`, Master Receive, `Data16` formats (`transfer.rs`
760-783): enables the peripheral; on RXNE stores the word on the side given by
CHSIDE (returning the completed frame on the right word, before the overrun
check); an observed overrun is cleared by reading DR then SR. -/
def masterRead16 (st : TransferState) (sr : Flags) :
    TransferState × ReadOutcome × Effects :=
  let st := { st with enabled := true }
  if sr.rxne then
    if sr.chside_right then
      let fr := (st.frame.1, i16ofU16 sr.dr)
      ({ st with frame := fr, frame_state := .LeftMsb }, .ok fr, ⟨[], 1, 1, 0⟩)
    else
      let st := { st with frame := (i16ofU16 sr.dr, st.frame.2),
                          frame_state := .RightMsb }
      if sr.ovr then (st, .wouldBlock, ⟨[], 2, 2, 0⟩)
      else (st, .wouldBlock, ⟨[], 1, 1, 0⟩)
  else
    if sr.ovr then (st, .wouldBlock, ⟨[], 1, 2, 0⟩)
    else (st, .wouldBlock, ⟨[], 0, 1, 0⟩)

/-- One iteration of the `read_while` loop body, Master Receive, `Data16`
(`transfer.rs` 725-754): like `read`, but the loop only exits when the
predicate rejects a completed frame (skipping the overrun check on exit). -/
def masterReadWhileStep16 (pred : Int × Int → Bool) (st : TransferState)
    (sr : Flags) : TransferState × IterControl × Effects :=
  if sr.rxne then
    if sr.chside_right then
      let fr := (st.frame.1, i16ofU16 sr.dr)
      let st := { st with frame := fr, frame_state := .LeftMsb }
      if pred fr then
        if sr.ovr then (st, .continued, ⟨[], 2, 2, 0⟩)
        else (st, .continued, ⟨[], 1, 1, 0⟩)
      else (st, .stopped, ⟨[], 1, 1, 0⟩)
    else
      let st := { st with frame := (i16ofU16 sr.dr, st.frame.2),
                          frame_state := .RightMsb }
      if sr.ovr then (st, .continued, ⟨[], 2, 2, 0⟩)
      else (st, .continued, ⟨[], 1, 1, 0⟩)
  else
    if sr.ovr then (st, .continued, ⟨[], 1, 2, 0⟩)
    else (st, .continued, ⟨[], 0, 1, 0⟩)

/-- The `read_while` polling loop, driven by the list of per-poll
observations (a truncated run is returned as-is when the list is used up). -/
def masterReadWhileLoop16 (pred : Int × Int → Bool) :
    TransferState → List Flags → TransferState × Effects
  | st, [] => (st, Effects.nil)
  | st, sr :: rest =>
      match masterReadWhileStep16 pred st sr with
      | (st', .stopped, eff) => (st', eff)
      | (st', .panicked, eff) => (st', eff)
      | (st', .continued, eff) =>
          let r := masterReadWhileLoop16 pred st' rest
          (r.1, eff.append r.2)

/-- `I2sTransfer::read_while`, Master Receive, `Data16` (`transfer.rs`
725-754): enables the peripheral then runs the polling loop. -/
def masterReadWhile16 (pred : Int × Int → Bool) (st : TransferState)
    (obs : List Flags) : TransferState × Effects :=
  masterReadWhileLoop16 pred { st with enabled := true } obs

/-- One iteration of the `write_iter` loop body, Master Transmit, `Data16`
(`transfer.rs` 341-371): on TXE with an empty frame either pulls the next
sample (breaking out when the iterator is exhausted) or continues emitting the
current frame. -/
def masterWriteIterStep16 (st : TransferState) (samples : List (Int × Int))
    (sr : Flags) : TransferState × List (Int × Int) × IterControl × Effects :=
  if sr.txe then
    match st.frame_state with
    | .LeftMsb =>
        match samples with
        | [] => (st, [], .stopped, ⟨[], 0, 1, 0⟩)
        | s :: rest =>
            ({ st with frame := s, frame_state := .RightMsb }, rest, .continued,
              ⟨[u16ofI16 s.1], 0, 1, 0⟩)
    | .RightMsb =>
        ({ st with frame_state := .LeftMsb }, samples, .continued,
          ⟨[u16ofI16 st.frame.2], 0, 1, 0⟩)
    | _ => (st, samples, .panicked, ⟨[], 0, 1, 0⟩)
  else (st, samples, .continued, ⟨[], 0, 1, 0⟩)

/-- The `write_iter` polling loop. -/
def masterWriteIterLoop16 :
    TransferState → List (Int × Int) → List Flags → TransferState × Effects
  | st, _, [] => (st, Effects.nil)
  | st, samples, sr :: rest =>
      match masterWriteIterStep16 st samples sr with
      | (st', _, .stopped, eff) => (st', eff)
      | (st', _, .panicked, eff) => (st', eff)
      | (st', samples', .continued, eff) =>
          let r := masterWriteIterLoop16 st' samples' rest
          (r.1, eff.append r.2)

/-- `I2sTransfer::write_iter`, Master Transmit, `Data16` (`transfer.rs`
341-371): enables the peripheral then runs the polling loop. -/
def masterWriteIter16 (st : TransferState) (samples : List (Int × Int))
    (obs : List Flags) : TransferState × Effects :=
  masterWriteIterLoop16 { st with enabled := true } samples obs

/-- `WS_START_LEVEL` (`marker.rs`, `impl_i2s_standard!`): the WS line level
that makes a slave start; `true` means high.  Philips starts on low, the Msb,
Lsb and both PCM standards on high. -/
def WS_START_LEVEL (std : I2sStandard) : Bool :=
  match std with
  | .Philips => false
  | .Msb => true
  | .Lsb => true
  | .PcmShortSync => true
  | .PcmLongSync => true

/-- `I2sTransfer::_ws_is_start` (`transfer.rs` 277-283): whether the observed
WS level `ws` (`true` = high) equals the start level of the standard. -/
def _ws_is_start (std : I2sStandard) (ws : Bool) : Bool :=
  ws == WS_START_LEVEL std

/-- `I2sTransfer::write`, Slave Transmit, `Data16` (`transfer.rs` 547-587).
`ws1` and `ws2` are the WS levels observed at the check before and at the
re-check after enabling.  While synced: on TXE emit the next word (returning
`Ok` early — before the error check — when a new frame is consumed), then on
FRE or UDR clear `sync` and disable.  While syncing: if WS is away from the
start level, pre-load the stored frame word into the data register, enable,
and re-check WS; if the level changed, disable again. -/
def slaveWrite16 (std : I2sStandard) (st : TransferState) (frame : Int × Int)
    (sr : Flags) (ws1 ws2 : Bool) : TransferState × WriteOutcome × Effects :=
  if st.sync then
    if sr.txe then
      match st.frame_state with
      | .LeftMsb =>
          ({ st with frame := frame, frame_state := .RightMsb }, .ok,
            ⟨[u16ofI16 frame.1], 0, 1, 0⟩)
      | .RightMsb =>
          let st := { st with frame_state := .LeftMsb }
          if sr.fre || sr.udr then
            ({ st with sync := false, enabled := false }, .wouldBlock,
              ⟨[u16ofI16 st.frame.2], 0, 1, 0⟩)
          else (st, .wouldBlock, ⟨[u16ofI16 st.frame.2], 0, 1, 0⟩)
      | _ => (st, .panicked, ⟨[], 0, 1, 0⟩)
    else
      if sr.fre || sr.udr then
        ({ st with sync := false, enabled := false }, .wouldBlock, ⟨[], 0, 1, 0⟩)
      else (st, .wouldBlock, ⟨[], 0, 1, 0⟩)
  else
    if !(_ws_is_start std ws1) then
      let st := { st with frame_state := .RightMsb, enabled := true }
      if !(_ws_is_start std ws2) then
        ({ st with sync := true }, .ok, ⟨[u16ofI16 st.frame.1], 0, 0, 0⟩)
      else
        ({ st with enabled := false }, .ok, ⟨[u16ofI16 st.frame.1], 0, 0, 0⟩)
    else (st, .wouldBlock, ⟨[], 0, 0, 0⟩)

/-- `I2sTransfer::read`, Slave Receive, `Data16` (`transfer.rs` 931-973).
When not synced the prelude disables the peripheral and sets the cursor to
`RightMsb`; the syncing branch discards the stale data-register content
(one DR read and one SR read) around the enable / WS re-check. -/
def slaveRead16 (std : I2sStandard) (st : TransferState) (sr : Flags)
    (ws1 ws2 : Bool) : TransferState × ReadOutcome × Effects :=
  if st.sync then
    if sr.rxne then
      match st.frame_state with
      | .LeftMsb =>
          let st := { st with frame := (i16ofU16 sr.dr, st.frame.2),
                              frame_state := .RightMsb }
          if sr.fre || sr.ovr then
            ({ st with sync := false, enabled := false }, .wouldBlock,
              ⟨[], 1, 1, 0⟩)
          else (st, .wouldBlock, ⟨[], 1, 1, 0⟩)
      | .RightMsb =>
          let fr := (st.frame.1, i16ofU16 sr.dr)
          ({ st with frame := fr, frame_state := .LeftMsb }, .ok fr,
            ⟨[], 1, 1, 0⟩)
      | _ => (st, .panicked, ⟨[], 1, 1, 0⟩)
    else
      if sr.fre || sr.ovr then
        ({ st with sync := false, enabled := false }, .wouldBlock, ⟨[], 0, 1, 0⟩)
      else (st, .wouldBlock, ⟨[], 0, 1, 0⟩)
  else
    let st := { st with enabled := false, frame_state := .RightMsb }
    if !(_ws_is_start std ws1) then
      let st := { st with frame_state := .RightMsb, enabled := true }
      if !(_ws_is_start std ws2) then
        ({ st with sync := true }, .wouldBlock, ⟨[], 1, 1, 0⟩)
      else ({ st with enabled := false }, .wouldBlock, ⟨[], 1, 1, 0⟩)
    else (st, .wouldBlock, ⟨[], 0, 0, 0⟩)

/-- One iteration of the `write_iter` loop body, Slave Transmit, `Data16`
(`transfer.rs` 488-542).  While synced: on TXE either pull the next sample
(breaking out of the loop — before the error check — when the iterator is
exhausted) or emit the second word, then on FRE or UDR clear `sync` and
disable.  While syncing: pull the next sample (breaking if exhausted), write
its first word, enable, re-check WS. -/
def slaveWriteIterStep16 (std : I2sStandard) (st : TransferState)
    (samples : List (Int × Int)) (sr : Flags) (ws1 ws2 : Bool) :
    TransferState × List (Int × Int) × IterControl × Effects :=
  if st.sync then
    if sr.txe then
      match st.frame_state with
      | .LeftMsb =>
          match samples with
          | [] => (st, [], .stopped, ⟨[], 0, 1, 0⟩)
          | s :: rest =>
              let st := { st with frame := s, frame_state := .RightMsb }
              if sr.fre || sr.udr then
                ({ st with sync := false, enabled := false }, rest, .continued,
                  ⟨[u16ofI16 s.1], 0, 1, 0⟩)
              else (st, rest, .continued, ⟨[u16ofI16 s.1], 0, 1, 0⟩)
      | .RightMsb =>
          let st := { st with frame_state := .LeftMsb }
          if sr.fre || sr.udr then
            ({ st with sync := false, enabled := false }, samples, .continued,
              ⟨[u16ofI16 st.frame.2], 0, 1, 0⟩)
          else (st, samples, .continued, ⟨[u16ofI16 st.frame.2], 0, 1, 0⟩)
      | _ => (st, samples, .panicked, ⟨[], 0, 1, 0⟩)
    else
      if sr.fre || sr.udr then
        ({ st with sync := false, enabled := false }, samples, .continued,
          ⟨[], 0, 1, 0⟩)
      else (st, samples, .continued, ⟨[], 0, 1, 0⟩)
  else
    if !(_ws_is_start std ws1) then
      match samples with
      | [] => (st, [], .stopped, ⟨[], 0, 0, 0⟩)
      | s :: rest =>
          let st := { st with frame := s, frame_state := .RightMsb,
                              enabled := true }
          if !(_ws_is_start std ws2) then
            ({ st with sync := true }, rest, .continued,
              ⟨[u16ofI16 s.1], 0, 0, 0⟩)
          else
            ({ st with enabled := false }, rest, .continued,
              ⟨[u16ofI16 s.1], 0, 0, 0⟩)
    else (st, samples, .continued, ⟨[], 0, 0, 0⟩)

/-- One iteration of the `read_while` loop body, Slave Receive, `Data16`
(`transfer.rs` 884-924).  While synced: on RXNE store the word at the cursor
(exiting — before the error check — when the predicate rejects a completed
frame), then on FRE or OVR clear the flags (DR read, SR read), clear `sync`
and disable.  While syncing: reset the cursor to the frame start, enable,
re-check WS. -/
def slaveReadWhileStep16 (std : I2sStandard) (pred : Int × Int → Bool)
    (st : TransferState) (sr : Flags) (ws1 ws2 : Bool) :
    TransferState × IterControl × Effects :=
  if st.sync then
    if sr.rxne then
      match st.frame_state with
      | .LeftMsb =>
          let st := { st with frame := (i16ofU16 sr.dr, st.frame.2),
                              frame_state := .RightMsb }
          if sr.fre || sr.ovr then
            ({ st with sync := false, enabled := false }, .continued,
              ⟨[], 2, 2, 0⟩)
          else (st, .continued, ⟨[], 1, 1, 0⟩)
      | .RightMsb =>
          let fr := (st.frame.1, i16ofU16 sr.dr)
          let st := { st with frame := fr, frame_state := .LeftMsb }
          if pred fr then
            if sr.fre || sr.ovr then
              ({ st with sync := false, enabled := false }, .continued,
                ⟨[], 2, 2, 0⟩)
            else (st, .continued, ⟨[], 1, 1, 0⟩)
          else (st, .stopped, ⟨[], 1, 1, 0⟩)
      | _ => (st, .panicked, ⟨[], 1, 1, 0⟩)
    else
      if sr.fre || sr.ovr then
        ({ st with sync := false, enabled := false }, .continued, ⟨[], 1, 2, 0⟩)
      else (st, .continued, ⟨[], 0, 1, 0⟩)
  else
    if !(_ws_is_start std ws1) then
      let st := { st with frame_state := .LeftMsb, enabled := true }
      if !(_ws_is_start std ws2) then
        ({ st with sync := true }, .continued, ⟨[], 0, 0, 0⟩)
      else ({ st with enabled := false }, .continued, ⟨[], 0, 0, 0⟩)
    else (st, .continued, ⟨[], 0, 0, 0⟩)

/-- The `write_iter` loop body never touches the enable bit (master mode has
no disable path). -/
theorem masterWriteIterStep16_enabled (st : TransferState)
    (samples : List (Int × Int)) (sr : Flags) :
    (masterWriteIterStep16 st samples sr).1.enabled = st.enabled := by
  rw [masterWriteIterStep16.eq_def]
  split
  · split <;> first | rfl | (split <;> rfl)
  · rfl

/-- The `read_while` loop body never touches the enable bit. -/
theorem masterReadWhileStep16_enabled (pred : Int × Int → Bool)
    (st : TransferState) (sr : Flags) :
    (masterReadWhileStep16 pred st sr).1.enabled = st.enabled := by
  rw [masterReadWhileStep16]
  dsimp only
  split_ifs <;> rfl

/-- The `read_while` loop body never resets the clocks. -/
theorem masterReadWhileStep16_rcc (pred : Int × Int → Bool)
    (st : TransferState) (sr : Flags) :
    (masterReadWhileStep16 pred st sr).2.2.rccResets = 0 := by
  rw [masterReadWhileStep16]
  dsimp only
  split_ifs <;> rfl

/-- The `write_iter` polling loop keeps the peripheral enabled. -/
theorem masterWriteIterLoop16_enabled (obs : List Flags) (st : TransferState)
    (samples : List (Int × Int)) (h : st.enabled = true) :
    (masterWriteIterLoop16 st samples obs).1.enabled = true := by
  induction obs generalizing st samples with
  | nil => exact h
  | cons sr rest ih =>
      rcases hstep : masterWriteIterStep16 st samples sr with
        ⟨st', samples', ctl, eff⟩
      have hen : st'.enabled = true := by
        have he := masterWriteIterStep16_enabled st samples sr
        rw [hstep] at he
        rw [show st'.enabled = (st', samples', ctl, eff).1.enabled from rfl, he, h]
      rw [masterWriteIterLoop16, hstep]
      cases ctl
      · exact ih st' samples' hen
      · exact hen
      · exact hen

/-- The `read_while` polling loop keeps the peripheral enabled. -/
theorem masterReadWhileLoop16_enabled (pred : Int × Int → Bool)
    (obs : List Flags) (st : TransferState) (h : st.enabled = true) :
    (masterReadWhileLoop16 pred st obs).1.enabled = true := by
  induction obs generalizing st with
  | nil => exact h
  | cons sr rest ih =>
      rcases hstep : masterReadWhileStep16 pred st sr with ⟨st', ctl, eff⟩
      have hen : st'.enabled = true := by
        have he := masterReadWhileStep16_enabled pred st sr
        rw [hstep] at he
        rw [show st'.enabled = (st', ctl, eff).1.enabled from rfl, he, h]
      rw [masterReadWhileLoop16, hstep]
      cases ctl
      · exact ih st' hen
      · exact hen
      · exact hen

/-- The `read_while` polling loop never resets the clocks. -/
theorem masterReadWhileLoop16_rcc (pred : Int × Int → Bool)
    (obs : List Flags) (st : TransferState) :
    (masterReadWhileLoop16 pred st obs).2.rccResets = 0 := by
  induction obs generalizing st with
  | nil => rfl
  | cons sr rest ih =>
      rcases hstep : masterReadWhileStep16 pred st sr with ⟨st', ctl, eff⟩
      have hr := masterReadWhileStep16_rcc pred st sr
      rw [hstep] at hr
      rw [masterReadWhileLoop16, hstep]
      cases ctl
      · show (eff.append (masterReadWhileLoop16 pred st' rest).2).rccResets = 0
        rw [Effects.append]
        show eff.rccResets + (masterReadWhileLoop16 pred st' rest).2.rccResets = 0
        rw [ih st']
        simpa using hr
      · exact hr
      · exact hr

/-- Claim C10: every call to `write` or `read` on a master-mode transfer (and
every call to `write_iter` or `read_while`) sets the peripheral enable bit at
entry, unconditionally: whatever the prior state, the observed flags, the
frame argument, the sample iterator or the predicate, the peripheral is
enabled afterwards — no explicit `begin()` is needed in master mode even
though materialization leaves the device disabled. -/
theorem C10_master_unconditional_enable (st : TransferState)
    (frame : Int × Int) (sr : Flags) (pred : Int × Int → Bool)
    (samples : List (Int × Int)) (obs : List Flags) :
    (masterWrite16 st frame sr).1.enabled = true
      ∧ (masterWrite32 st frame sr).1.enabled = true
      ∧ (masterRead16 st sr).1.enabled = true
      ∧ (masterWriteIter16 st samples obs).1.enabled = true
      ∧ (masterReadWhile16 pred st obs).1.enabled = true := by
  refine ⟨?_, ?_, ?_, ?_, ?_⟩
  · rw [masterWrite16]
    split
    · split <;> rfl
    · rfl
  · rw [masterWrite32]
    split
    · split <;> rfl
    · rfl
  · rw [masterRead16]
    dsimp only
    split_ifs <;> rfl
  · exact masterWriteIterLoop16_enabled obs _ samples rfl
  · exact masterReadWhileLoop16_enabled pred obs _ rfl

/-- Claim C3 (amended: the code silently recovers from a master-receive
overrun instead of surfacing it).  Both entry points have error type
`Infallible`, so no `ReceiveError::Overrun` can ever be returned; on an
observed overrun with no pending data, `read` clears the flag by reading the
data register then the status register and reports `WouldBlock`, leaving the
cursor and sync flag untouched; both `read` and `read_while` leave the
peripheral enabled and never reset the clocks. -/
theorem C3_master_receive_overrun_silent (st : TransferState) (sr : Flags)
    (pred : Int × Int → Bool) (obs : List Flags) :
    (masterRead16 st sr).1.enabled = true
      ∧ (masterRead16 st sr).2.2.rccResets = 0
      ∧ (sr.rxne = false → sr.ovr = true →
          (masterRead16 st sr).2.1 = .wouldBlock
            ∧ (masterRead16 st sr).2.2.drReads = 1
            ∧ (masterRead16 st sr).2.2.srReads = 2
            ∧ (masterRead16 st sr).1.frame_state = st.frame_state
            ∧ (masterRead16 st sr).1.sync = st.sync)
      ∧ (masterReadWhile16 pred st obs).1.enabled = true
      ∧ (masterReadWhile16 pred st obs).2.rccResets = 0 := by
  refine ⟨?_, ?_, ?_, ?_, ?_⟩
  · rw [masterRead16]
    dsimp only
    split_ifs <;> rfl
  · rw [masterRead16]
    dsimp only
    split_ifs <;> rfl
  · intro hrxne hovr
    rw [masterRead16, hrxne, hovr]
    dsimp only
    exact ⟨rfl, rfl, rfl, rfl, rfl⟩
  · exact masterReadWhileLoop16_enabled pred obs _ rfl
  · exact masterReadWhileLoop16_rcc pred obs _

/-- Witness for C3 at a concrete overrun poll: transfer idle at the left word,
overrun flag set, no data pending — `read` yields `WouldBlock`, performs one
data-register read and two status reads, keeps the cursor, stays enabled and
never resets clocks. -/
theorem C3_master_receive_overrun_silent_witness :
    (masterRead16 ⟨true, (3, 4), .LeftMsb, false⟩
        ⟨false, false, false, true, false, false, 0⟩).2.1 = .wouldBlock
      ∧ (masterRead16 ⟨true, (3, 4), .LeftMsb, false⟩
          ⟨false, false, false, true, false, false, 0⟩).2.2.drReads = 1
      ∧ (masterRead16 ⟨true, (3, 4), .LeftMsb, false⟩
          ⟨false, false, false, true, false, false, 0⟩).2.2.srReads = 2
      ∧ (masterRead16 ⟨true, (3, 4), .LeftMsb, false⟩
          ⟨false, false, false, true, false, false, 0⟩).1.enabled = true := by
  have h := C3_master_receive_overrun_silent ⟨true, (3, 4), .LeftMsb, false⟩
    ⟨false, false, false, true, false, false, 0⟩ (fun _ => true) []
  have h3 := h.2.2.1 rfl rfl
  exact ⟨h3.1, h3.2.1, h3.2.2.1, h.1⟩

/-- Counterexample to claim C3 as stated: at a concrete overrun poll (overrun
flag set during Master Receive), `read` does not surface any error — it
returns `WouldBlock` (its error type `Infallible` has no values), leaves the
transfer ENABLED rather than disabled, and performs no clock reset. -/
theorem C3_counterexample :
    (masterRead16 ⟨false, (0, 0), .LeftMsb, false⟩
        ⟨false, false, false, true, false, false, 7⟩).2.1 = .wouldBlock
      ∧ (masterRead16 ⟨false, (0, 0), .LeftMsb, false⟩
          ⟨false, false, false, true, false, false, 7⟩).1.enabled = true
      ∧ (masterRead16 ⟨false, (0, 0), .LeftMsb, false⟩
          ⟨false, false, false, true, false, false, 7⟩).2.2.rccResets = 0 := by
  refine ⟨rfl, rfl, rfl⟩

/-- Claim C4 (amended: while SYNCING the transfer does write to the data
register in slave transmit — the pre-load of the first frame word before
enabling — and slave receive performs a discarding data-register read; but no
received word is ever accepted into the frame while SYNCING and no frame is
delivered).  The per-standard start levels are as claimed (Philips low; Msb,
Lsb and PCM high), and the SYNCING→SYNCED transition happens exactly when the
word-select check passes both before and after enabling; if the level reverts
during the enable, the peripheral is immediately disabled and the transition
does not occur. -/
theorem C4_slave_syncing_transition (std : I2sStandard) (st : TransferState)
    (frame : Int × Int) (sr : Flags) (ws1 ws2 : Bool)
    (hsync : st.sync = false) :
    (WS_START_LEVEL .Philips = false ∧ WS_START_LEVEL .Msb = true
        ∧ WS_START_LEVEL .Lsb = true ∧ WS_START_LEVEL .PcmShortSync = true
        ∧ WS_START_LEVEL .PcmLongSync = true)
      ∧ ((slaveWrite16 std st frame sr ws1 ws2).1.sync = true ↔
          _ws_is_start std ws1 = false ∧ _ws_is_start std ws2 = false)
      ∧ (_ws_is_start std ws1 = false → _ws_is_start std ws2 = true →
          (slaveWrite16 std st frame sr ws1 ws2).1.enabled = false)
      ∧ (slaveWrite16 std st frame sr ws1 ws2).2.2.drWrites
          = (if _ws_is_start std ws1 = false then [u16ofI16 st.frame.1] else [])
      ∧ ((slaveRead16 std st sr ws1 ws2).1.sync = true ↔
          _ws_is_start std ws1 = false ∧ _ws_is_start std ws2 = false)
      ∧ (_ws_is_start std ws1 = false → _ws_is_start std ws2 = true →
          (slaveRead16 std st sr ws1 ws2).1.enabled = false)
      ∧ (slaveRead16 std st sr ws1 ws2).1.frame = st.frame
      ∧ (∀ fr, (slaveRead16 std st sr ws1 ws2).2.1 ≠ .ok fr)
      ∧ (slaveRead16 std st sr ws1 ws2).2.2.drWrites = [] := by
  rw [slaveWrite16, slaveRead16, hsync]
  refine ⟨by cases std <;> exact ⟨rfl, rfl, rfl, rfl, rfl⟩, ?_⟩
  dsimp only
  cases h1 : _ws_is_start std ws1 <;> cases h2 : _ws_is_start std ws2 <;>
    simp [h1, h2, hsync]

/-- Witness for C4 at a concrete syncing poll (Philips slave, WS observed high
then high — i.e. away from the Philips low start level at both checks): the
transfer transitions to SYNCED, the transmit side pre-loads exactly the stored
left word, and the receive side accepts no word and delivers no frame. -/
theorem C4_slave_syncing_transition_witness :
    (slaveWrite16 .Philips ⟨false, (5, 7), .LeftMsb, false⟩ (1, 2)
        ⟨false, false, false, false, false, false, 0⟩ true true).1.sync = true
      ∧ (slaveWrite16 .Philips ⟨false, (5, 7), .LeftMsb, false⟩ (1, 2)
          ⟨false, false, false, false, false, false, 0⟩ true true).2.2.drWrites
        = [5]
      ∧ (slaveRead16 .Philips ⟨false, (5, 7), .LeftMsb, false⟩
          ⟨false, false, false, false, false, false, 0⟩ true true).1.frame
        = (5, 7) := by
  have h := C4_slave_syncing_transition .Philips ⟨false, (5, 7), .LeftMsb, false⟩
    (1, 2) ⟨false, false, false, false, false, false, 0⟩ true true rfl
  refine ⟨h.2.1.mpr ⟨by decide, by decide⟩, ?_, h.2.2.2.2.2.2.1⟩
  have hd := h.2.2.2.1
  rw [hd]
  decide

/-- Counterexample to claim C4 as stated: in slave transmit, a data word IS
emitted to the data register while the transfer is in the SYNCING state — the
pre-load of the first word happens with `sync = false` (here the stored left
word 5 is written during the syncing poll). -/
theorem C4_counterexample :
    (⟨false, (5, 7), .LeftMsb, false⟩ : TransferState).sync = false
      ∧ (slaveWrite16 .Philips ⟨false, (5, 7), .LeftMsb, false⟩ (1, 2)
          ⟨false, false, false, false, false, false, 0⟩ true false).2.2.drWrites
        ≠ [] := by
  exact ⟨rfl, by decide⟩

/-- Claim C6 (amended: the observed error flag forces the return to SYNCING on
every poll that continues the loop; when the blocking call exits on the very
same poll — `write_iter` with an exhausted iterator, or `read_while` with a
rejecting predicate — it returns before the error check and the flag is
dropped.  The word cursor is reset when the transfer next transitions back to
SYNCED: `read_while` restarts at the frame's first word, `write_iter` starts a
fresh frame pulled from the iterator).  In the SYNCED state, whenever the loop
continues, an observed frame-error (or, for transmit, underrun) flag clears
the sync flag and disables the peripheral; with no data pending the step does
exactly that and nothing else (for `read_while` also clearing the flags with a
DR read and an SR read); the condition is never escalated — the loop control
is `continued`, never an error exit. -/
theorem C6_slave_synced_error_resync (std : I2sStandard) (st : TransferState)
    (samples : List (Int × Int)) (pred : Int × Int → Bool) (sr : Flags)
    (ws1 ws2 : Bool) :
    (st.sync = true → (sr.fre = true ∨ sr.udr = true) →
        (slaveWriteIterStep16 std st samples sr ws1 ws2).2.2.1 = .continued →
        (slaveWriteIterStep16 std st samples sr ws1 ws2).1.sync = false
          ∧ (slaveWriteIterStep16 std st samples sr ws1 ws2).1.enabled = false)
      ∧ (st.sync = true → (sr.fre = true ∨ sr.ovr = true) →
          (slaveReadWhileStep16 std pred st sr ws1 ws2).2.1 = .continued →
          (slaveReadWhileStep16 std pred st sr ws1 ws2).1.sync = false
            ∧ (slaveReadWhileStep16 std pred st sr ws1 ws2).1.enabled = false)
      ∧ (st.sync = true → sr.txe = false → (sr.fre = true ∨ sr.udr = true) →
          slaveWriteIterStep16 std st samples sr ws1 ws2
            = ({ st with sync := false, enabled := false }, samples, .continued,
                ⟨[], 0, 1, 0⟩))
      ∧ (st.sync = true → sr.rxne = false → (sr.fre = true ∨ sr.ovr = true) →
          slaveReadWhileStep16 std pred st sr ws1 ws2
            = ({ st with sync := false, enabled := false }, .continued,
                ⟨[], 1, 2, 0⟩))
      ∧ (st.sync = false →
          (slaveReadWhileStep16 std pred st sr ws1 ws2).1.sync = true →
          (slaveReadWhileStep16 std pred st sr ws1 ws2).1.frame_state
            = .LeftMsb)
      ∧ (st.sync = false →
          (slaveWriteIterStep16 std st samples sr ws1 ws2).1.sync = true →
          ∃ s rest, samples = s :: rest
            ∧ (slaveWriteIterStep16 std st samples sr ws1 ws2).1.frame = s
            ∧ (slaveWriteIterStep16 std st samples sr ws1 ws2).1.frame_state
              = .RightMsb
            ∧ (slaveWriteIterStep16 std st samples sr ws1 ws2).2.2.2.drWrites
              = [u16ofI16 s.1]) := by
  refine ⟨?_, ?_, ?_, ?_, ?_, ?_⟩
  · intro hsync herr
    rw [slaveWriteIterStep16.eq_def, hsync]
    have herr' : (sr.fre || sr.udr) = true := by
      rcases herr with h | h <;> simp [h]
    dsimp only
    cases htxe : sr.txe
    · simp [herr']
    · cases hfs : st.frame_state
      case LeftMsb =>
          cases samples with
          | nil => intro hctl; exact absurd hctl (by simp)
          | cons s rest => simp [herr']
      case RightMsb => simp [herr']
      case LeftLsb => intro hctl; exact absurd hctl (by simp)
      case RightLsb => intro hctl; exact absurd hctl (by simp)
  · intro hsync herr
    rw [slaveReadWhileStep16.eq_def, hsync]
    have herr' : (sr.fre || sr.ovr) = true := by
      rcases herr with h | h <;> simp [h]
    dsimp only
    cases hrxne : sr.rxne
    · simp [herr']
    · cases hfs : st.frame_state
      case LeftMsb => simp [herr']
      case RightMsb =>
          cases hpred : pred (st.frame.1, i16ofU16 sr.dr)
          · intro hctl; exact absurd hctl (by simp [hpred])
          · simp [herr', hpred]
      case LeftLsb => intro hctl; exact absurd hctl (by simp)
      case RightLsb => intro hctl; exact absurd hctl (by simp)
  · intro hsync htxe herr
    have herr' : (sr.fre || sr.udr) = true := by
      rcases herr with h | h <;> simp [h]
    rw [slaveWriteIterStep16.eq_def, hsync, htxe]
    simp [herr']
  · intro hsync hrxne herr
    have herr' : (sr.fre || sr.ovr) = true := by
      rcases herr with h | h <;> simp [h]
    rw [slaveReadWhileStep16.eq_def, hsync, hrxne]
    simp [herr']
  · intro hsync
    rw [slaveReadWhileStep16.eq_def, hsync]
    dsimp only
    cases h1 : _ws_is_start std ws1 <;> cases h2 : _ws_is_start std ws2 <;>
      simp [hsync]
  · intro hsync
    rw [slaveWriteIterStep16.eq_def, hsync]
    dsimp only
    cases h1 : _ws_is_start std ws1
    · cases samples with
      | nil => intro h; exact absurd h (by simp [hsync])
      | cons s rest =>
          cases h2 : _ws_is_start std ws2
          · intro _; exact ⟨s, rest, rfl, by simp, by simp, by simp⟩
          · intro h; exact absurd h (by simp [hsync])
    · intro h; exact absurd h (by simp [hsync])

/-- Witness for C6 at a concrete synced poll with a frame error and no data
pending: the `write_iter` body clears `sync`, disables the peripheral and the
loop continues; same for the `read_while` body, which also clears the flags
with one data-register read and two status reads in total. -/
theorem C6_slave_synced_error_resync_witness :
    slaveWriteIterStep16 .Philips ⟨true, (1, 2), .LeftMsb, true⟩ [(9, 9)]
        ⟨false, false, false, false, false, true, 0⟩ false false
      = (⟨false, (1, 2), .LeftMsb, false⟩, [(9, 9)], .continued, ⟨[], 0, 1, 0⟩)
      ∧ slaveReadWhileStep16 .Philips (fun _ => true)
          ⟨true, (1, 2), .LeftMsb, true⟩
          ⟨false, false, false, false, false, true, 0⟩ false false
        = (⟨false, (1, 2), .LeftMsb, false⟩, .continued, ⟨[], 1, 2, 0⟩) := by
  have h := C6_slave_synced_error_resync .Philips ⟨true, (1, 2), .LeftMsb, true⟩
    [(9, 9)] (fun _ => true) ⟨false, false, false, false, false, true, 0⟩
    false false
  exact ⟨h.2.2.1 rfl rfl (.inl rfl), h.2.2.2.1 rfl rfl (.inl rfl)⟩

/-- Counterexample to claim C6 as stated: when `write_iter` exhausts its
iterator on the same poll on which a frame error is observed (SYNCED state,
TXE set, empty iterator), the loop breaks before the error check — the
transfer does NOT return to SYNCING (sync stays true, the peripheral stays
enabled), so the observed frame-error flag does not force resynchronization. -/
theorem C6_counterexample :
    (⟨true, (1, 2), .LeftMsb, true⟩ : TransferState).sync = true
      ∧ (⟨true, false, false, false, false, true, 0⟩ : Flags).fre = true
      ∧ (slaveWriteIterStep16 .Philips ⟨true, (1, 2), .LeftMsb, true⟩ []
          ⟨true, false, false, false, false, true, 0⟩ false false).1.sync = true
      ∧ (slaveWriteIterStep16 .Philips ⟨true, (1, 2), .LeftMsb, true⟩ []
          ⟨true, false, false, false, false, true, 0⟩ false false).1.enabled
        = true
      ∧ (slaveWriteIterStep16 .Philips ⟨true, (1, 2), .LeftMsb, true⟩ []
          ⟨true, false, false, false, false, true, 0⟩ false false).2.2.1
        = .stopped := by
  refine ⟨rfl, rfl, by decide, by decide, by decide⟩

end StmI2s
